import Mathlib

/-!
Verification of the solarsystemmodel-interactive repository.

The repository contains two small Python batch converters:

* `src/voyagerpy/voyagers_to_kml.py` — loads HORIZONS heliocentric vectors
  (AU) from CSV files, projects each `(x, y, z)` sample to a
  `(lon, lat, altitude)` triple, and emits a KML document with one styled
  `gx:Track` per input series.
* `src/voyagerpy/generar_kml.py` — loads planar `(x, y)` samples from a
  fixed-format text file, decimates them by a line stride and a minimum
  planar distance, projects them with an affine offset around a fixed
  reference point, and emits a single KML `LineString`.

This file gives a shallow embedding of both pipelines.  Python floats are
modelled by real numbers `ℝ` (exact arithmetic); `math.atan2`, `math.hypot`,
`math.sqrt` and `math.degrees` are modelled by the corresponding exact real
functions.  The CSV-loading behaviour of `pandas.read_csv` is modelled on
lists of input lines.  The emitted KML is modelled structurally (header,
style and placemark parts, and alternating `<when>`/`<gx:coord>` entries)
rather than as a formatted string, since decimal float formatting is out of
scope of exact real arithmetic.
-/

namespace SolarKML

noncomputable section

/-! ## Constants of voyagers_to_kml.py -/

/-- `SCALE_DENOMINATOR = 174_000_000` (scale 1 : 174,000,000). -/
def SCALE_DENOMINATOR : ℝ := 174000000

/-- `AU_METERS = 149_597_870_000.0` (meters per astronomical unit). -/
def AU_METERS : ℝ := 149597870000

/-- `SCALE_M_PER_AU = AU_METERS / SCALE_DENOMINATOR`. -/
def SCALE_M_PER_AU : ℝ := AU_METERS / SCALE_DENOMINATOR

/-! ## Real models of the math-library functions used by the source -/

/-- Model of Python `math.atan2(y, x)`: the angle of the point `(x, y)`,
in `(-π, π]`, with `atan2 0 0 = 0`.  This is exactly the argument of the
complex number `x + y·i`. -/
def atan2 (y x : ℝ) : ℝ := Complex.arg ⟨x, y⟩

/-- Model of Python `math.hypot(x, y) = sqrt(x² + y²)`. -/
def hypot (x y : ℝ) : ℝ := Real.sqrt (x ^ 2 + y ^ 2)

/-- Model of Python `math.degrees`. -/
def degrees (t : ℝ) : ℝ := t * (180 / Real.pi)

/-- Model of Python `math.radians` (used only by the spec-side
reconstruction in the round-trip property). -/
def radians (t : ℝ) : ℝ := t * (Real.pi / 180)

/-! ## The spherical projector of voyagers_to_kml.py -/

/-- Result triple of `xyz_to_lonlatalt`. -/
structure LonLatAlt where
  lon : ℝ
  lat : ℝ
  alt : ℝ

/-- Embedding of `xyz_to_lonlatalt(x, y, z)`:

    r_xy = math.hypot(x, y)
    r = math.sqrt(x*x + y*y + z*z)
    lon = math.degrees(math.atan2(y, x))
    lat = math.degrees(math.atan2(z, r_xy)) if r_xy != 0 else (90.0 if z > 0 else -90.0)
    alt_m = r * SCALE_M_PER_AU
-/
def xyz_to_lonlatalt (x y z : ℝ) : LonLatAlt :=
  let r_xy := hypot x y
  let r := Real.sqrt (x * x + y * y + z * z)
  { lon := degrees (atan2 y x)
    lat := if r_xy ≠ 0 then degrees (atan2 z r_xy) else (if 0 < z then 90 else -90)
    alt := r * SCALE_M_PER_AU }

/-- Spec-side definition for the round-trip property (§8 of the spec):
reconstruct a Cartesian vector from the spherical form `(lon, lat, altitude)`
— radius `altitude` rescaled by `scaleDenominator / metersPerAU`, then the
standard spherical-to-Cartesian formulas. -/
def reconstruct (p : LonLatAlt) : ℝ × ℝ × ℝ :=
  let r := p.alt * (SCALE_DENOMINATOR / AU_METERS)
  let lonR := radians p.lon
  let latR := radians p.lat
  (r * Real.cos latR * Real.cos lonR, r * Real.cos latR * Real.sin lonR, r * Real.sin latR)

/-! ## generar_kml.py: constants, distance, decimation filter, projection -/

/-- `min_distance = 1e2`. -/
def min_distance : ℝ := 100

/-- `factor_escala = 174000000`. -/
def factor_escala : ℝ := 174000000

/-- `sun_lat = -25.280945`. -/
def sun_lat : ℝ := -25.280945

/-- `sun_lon = -57.609083`. -/
def sun_lon : ℝ := -57.609083

/-- `line_skip = 2`. -/
def line_skip : ℕ := 2

/-- Embedding of `distance(p1, p2)`:
`math.sqrt((p1[0]-p2[0])**2 + (p1[1]-p2[1])**2)` — planar Euclidean
distance of the `(x, y)` components. -/
def distance (p1 p2 : ℝ × ℝ) : ℝ :=
  Real.sqrt ((p1.1 - p2.1) ^ 2 + (p1.2 - p2.2) ^ 2)

/-- Model of the Python stride slice `lines[::k]` for `k ≥ 1`: the elements
at indices `0, k, 2k, ...` in order. -/
def takeEvery (k : ℕ) : List α → List α
  | [] => []
  | a :: rest => a :: takeEvery k (rest.drop (k - 1))
termination_by l => l.length
decreasing_by
  simp only [List.length_drop, List.length_cons]
  omega

/-- Embedding of the filtering loop of generar_kml.py:

    filtered_points = []
    last_point = None
    for line in lines:
        ... x, y ...
        if last_point is None or distance((x, y), last_point) > min_distance:
            filtered_points.append((x, y))
            last_point = (x, y)

`d` is the `min_distance` parameter and the first argument is the running
`last_point`. -/
def filterLoop (d : ℝ) : Option (ℝ × ℝ) → List (ℝ × ℝ) → List (ℝ × ℝ)
  | _, [] => []
  | none, p :: rest => p :: filterLoop d (some p) rest
  | some q, p :: rest =>
      if distance p q > d then p :: filterLoop d (some p) rest
      else filterLoop d (some q) rest

/-- The decimation filter: `filtered_points` as computed by the loop,
starting from `last_point = None`. -/
def filtered_points (d : ℝ) (pts : List (ℝ × ℝ)) : List (ℝ × ℝ) :=
  filterLoop d none pts

/-- Embedding of the projection in the KML-writing loop of generar_kml.py:
`lon = sun_lon + x / factor_escala`, `lat = sun_lat + y / factor_escala`. -/
def project (x y : ℝ) : ℝ × ℝ :=
  (sun_lon + x / factor_escala, sun_lat + y / factor_escala)

/-! ## The KML emitter of voyagers_to_kml.py

The emitted document is modelled structurally: one `KmlPart` per string
part appended by `build_kml` (header, one style per series, one placemark
per series, footer), and inside a placemark's `gx:Track` one `TrackEntry`
per emitted line (a `<when>` time marker or a `<gx:coord>` triple). -/

/-- One line inside a `gx:Track`: a `<when>` marker or a `<gx:coord>`. -/
inductive TrackEntry
  | timeMark (t : String)
  | coord (p : LonLatAlt)

/-- One part appended to the `parts` list by `build_kml`. -/
inductive KmlPart
  | header
  | style (style_id : String) (width : ℝ)
  | placemark (name : String) (style_id : String) (when_coords : List TrackEntry)
  | footer

/-- One named input series, as assembled by `main`:
`(name, T, X, Y, Z)`. -/
structure Series where
  name : String
  T : List String
  X : List ℝ
  Y : List ℝ
  Z : List ℝ

instance : Inhabited Series := ⟨⟨"", [], [], [], []⟩⟩

/-- Model of Python `zip(T, X, Y, Z)`: truncating four-way zip. -/
def zip4 {α β γ δ : Type*} : List α → List β → List γ → List δ → List (α × β × γ × δ)
  | a :: as, b :: bs, c :: cs, d :: ds => (a, b, c, d) :: zip4 as bs cs ds
  | _, _, _, _ => []

/-- Body of the `make_when_coords` loop: for one `(t, x, y, z)` sample,
append one `<when>` line and one `<gx:coord>` line with the projected
coordinates. -/
def expandEntry (q : String × ℝ × ℝ × ℝ) : List TrackEntry :=
  [TrackEntry.timeMark q.1, TrackEntry.coord (xyz_to_lonlatalt q.2.1 q.2.2.1 q.2.2.2)]

/-- Embedding of `make_when_coords(times, X, Y, Z)`: alternating `<when>`
and `<gx:coord>` entries, one pair per zipped sample, in input order. -/
def make_when_coords (T : List String) (X Y Z : List ℝ) : List TrackEntry :=
  (zip4 T X Y Z).flatMap expandEntry

/-- The style parts emitted by the first loop of `build_kml`
(`for idx, _ in enumerate(series)`, style id `s{idx+1}`, width 1.5),
with `i` the 1-based id of the first series of the remaining list. -/
def stylesFrom (i : ℕ) : List Series → List KmlPart
  | [] => []
  | _ :: rest => KmlPart.style ("s" ++ toString i) 1.5 :: stylesFrom (i + 1) rest

/-- The placemark parts emitted by the second loop of `build_kml`. -/
def placemarksFrom (i : ℕ) : List Series → List KmlPart
  | [] => []
  | s :: rest =>
      KmlPart.placemark s.name ("s" ++ toString i)
          (make_when_coords s.T s.X s.Y s.Z)
        :: placemarksFrom (i + 1) rest

/-- Embedding of `build_kml(series)`: header, then one style per series,
then one placemark (track) per series, then the footer. -/
def build_kml (series : List Series) : List KmlPart :=
  [KmlPart.header] ++ stylesFrom 1 series ++ placemarksFrom 1 series ++ [KmlPart.footer]

/-- Recognizer for style parts. -/
def isStyle : KmlPart → Bool
  | KmlPart.style _ _ => true
  | _ => false

/-- Recognizer for placemark (track) parts. -/
def isPlacemark : KmlPart → Bool
  | KmlPart.placemark _ _ _ => true
  | _ => false

/-- Recognizer for `<gx:coord>` track entries. -/
def isCoord : TrackEntry → Bool
  | TrackEntry.coord _ => true
  | _ => false

/-- The time of a `<when>` entry. -/
def timeOf : TrackEntry → Option String
  | TrackEntry.timeMark t => some t
  | _ => none

/-- The projected triple of a `<gx:coord>` entry. -/
def coordOf : TrackEntry → Option LonLatAlt
  | TrackEntry.coord p => some p
  | _ => none

/-- The track entries of a placemark part (empty for other parts). -/
def entriesOfPart : KmlPart → List TrackEntry
  | KmlPart.placemark _ _ wc => wc
  | _ => []

/-- A track body alternates strictly: `<when>` then `<gx:coord>`, repeated. -/
def alternatesWhenCoord : List TrackEntry → Bool
  | [] => true
  | TrackEntry.timeMark _ :: TrackEntry.coord _ :: rest => alternatesWhenCoord rest
  | _ => false

/-- The entries of the `i`-th track (placemark) of an emitted document. -/
def nthTrack (series : List Series) (i : ℕ) : List TrackEntry :=
  entriesOfPart (((build_kml series).filter fun p => isPlacemark p).getD i KmlPart.footer)

/-- Concrete two-series input (lengths 3 and 5) for the C6 witness. -/
def demoSeries : List Series :=
  [⟨"A", ["t1", "t2", "t3"], [0, 0, 0], [0, 0, 0], [0, 0, 0]⟩,
   ⟨"B", ["u1", "u2", "u3", "u4", "u5"], [1, 1, 1, 1, 1],
     [0, 0, 0, 0, 0], [0, 0, 0, 0, 0]⟩]

/-! ## The CLI glue of voyagers_to_kml.py

`main` is modelled as the sequence of externally visible I/O actions it
performs after argument parsing, with the file system abstracted as a
function `load` from input path to loaded `(T, X, Y, Z)` data. -/

/-- Loaded per-file data `(T, X, Y, Z)`. -/
def SeriesData : Type := List String × List ℝ × List ℝ × List ℝ

/-- One externally visible I/O action of `main`. -/
inductive Action
  | readFile (path : String)
  | writeFile (path : String) (doc : List KmlPart)
  | printLine (s : String)
  | exitErr (code : ℕ) (msg : String)

/-- Recognizer for input-file reads. -/
def isReadAction : Action → Bool
  | Action.readFile _ => true
  | _ => false

/-- Recognizer for output-file writes. -/
def isWriteAction : Action → Bool
  | Action.writeFile _ _ => true
  | _ => false

/-- The series list assembled by the loop
`for inp, name in zip(args.inputs, args.names)`. -/
def mkSeries (load : String → SeriesData) (inputs names : List String) : List Series :=
  (inputs.zip names).map fun q =>
    { name := q.2
      T := (load q.1).1
      X := (load q.1).2.1
      Y := (load q.1).2.2.1
      Z := (load q.1).2.2.2 }

/-- Embedding of `main()` after argument parsing: check the
`--inputs`/`--names` length match (raising `SystemExit`, exit status 1,
before any file access on mismatch), else read every input, write the
built KML to the output path once, and print the two confirmation lines. -/
def main (load : String → SeriesData) (inputs names : List String) (output : String) :
    List Action :=
  if inputs.length ≠ names.length then
    [Action.exitErr 1 "--inputs and --names must have the same length."]
  else
    (inputs.map Action.readFile)
      ++ [Action.writeFile output (build_kml (mkSeries load inputs names)),
          Action.printLine ("KML escrito en: " ++ output),
          Action.printLine ("Escala: 1:" ++ toString (174000000 : ℕ))]

/-! ## The CSV loader of voyagers_to_kml.py

`load_vectors` calls `pandas.read_csv(csv_path, header=None, comment="#")`
and then selects and converts columns.  The relevant `read_csv` semantics,
modelled here on a list of input lines (each line a list of characters):

* everything from the first `#` on a line is discarded (`comment="#"`),
  so a line beginning with `#` becomes empty;
* empty lines are skipped (`skip_blank_lines` default);
* remaining lines are split on `,` into fields;
* the expected column count is taken from the first data row; a row with
  MORE fields raises a tokenizing `ParserError`; a row with FEWER fields
  is padded with NaN on the right (it does NOT raise);
* an input with no data rows raises `EmptyDataError`;
* `df.iloc[:, [1, 2, 3, 4]]` raises `IndexError` when the frame has fewer
  than 5 columns;
* `.astype(float)` parses each present cell as a float (`ValueError` on a
  non-numeric cell) and leaves NaN cells as NaN.

A NaN cell is modelled as `none`; a parsed float as `some q` with `q : ℚ`
(the inputs exercised here are plain decimal literals, which Python floats
represent as the corresponding rationals). -/

/-- The errors `load_vectors` can propagate. -/
inductive LoadError
  | emptyData
  | parserError
  | indexError
  | valueError

/-- Result of `load_vectors`: the `Datetime` column (column 1, `none` for a
NaN-padded cell) and the `X`, `Y`, `Z` columns (`none` = NaN). -/
structure Vectors where
  dates : List (Option (List Char))
  X : List (Option ℚ)
  Y : List (Option ℚ)
  Z : List (Option ℚ)

/-- `comment="#"`: discard everything from the first `#` on. -/
def stripComment (cs : List Char) : List Char :=
  cs.takeWhile (fun c => c ≠ '#')

/-- Split a line into comma-separated fields (accumulator holds the current
field reversed). -/
def splitFieldsAux : List Char → List Char → List (List Char)
  | [], acc => [acc.reverse]
  | c :: cs, acc =>
      if c = ',' then acc.reverse :: splitFieldsAux cs []
      else splitFieldsAux cs (c :: acc)

/-- Split a line into comma-separated fields. -/
def splitFields (cs : List Char) : List (List Char) :=
  splitFieldsAux cs []

/-- The data rows seen by `read_csv`: comment-stripped, blank lines
skipped, split on commas. -/
def parseRows (lines : List String) : List (List (List Char)) :=
  ((lines.map (fun l => stripComment l.toList)).filter (fun l => l ≠ [])).map splitFields

/-- Whitespace stripped by Python `float()`. -/
def isSpaceChar (c : Char) : Bool := c = ' ' || c = '\t'

/-- Strip leading and trailing whitespace. -/
def trimChars (cs : List Char) : List Char :=
  ((cs.dropWhile isSpaceChar).reverse.dropWhile isSpaceChar).reverse

/-- Parse a digit string (most significant first) onto an accumulator;
`none` if any character is not a digit. -/
def parseDigitsAux : List Char → ℕ → Option ℕ
  | [], acc => some acc
  | c :: cs, acc =>
      if c.isDigit then parseDigitsAux cs (acc * 10 + (c.toNat - 48)) else none

/-- Parse an unsigned decimal literal `digits[.digits]` as a rational. -/
def parseUnsigned (cs : List Char) : Option ℚ :=
  let intPart := cs.takeWhile (fun c => c ≠ '.')
  let rest := cs.dropWhile (fun c => c ≠ '.')
  match rest with
  | [] =>
      if intPart = [] then none
      else (parseDigitsAux intPart 0).map (fun n => (n : ℚ))
  | _ :: frac =>
      if intPart = [] ∧ frac = [] then none
      else
        match parseDigitsAux intPart 0, parseDigitsAux frac 0 with
        | some ip, some fp => some ((ip : ℚ) + (fp : ℚ) / ((10 : ℚ) ^ frac.length))
        | _, _ => none

/-- Model of Python `float(s)` on plain decimal literals: optional sign
after surrounding whitespace, then `digits[.digits]`. -/
def decimalParse (cs : List Char) : Option ℚ :=
  match trimChars cs with
  | [] => none
  | c :: rest =>
      if c = '-' then (parseUnsigned rest).map (fun q => -q)
      else if c = '+' then parseUnsigned rest
      else parseUnsigned (c :: rest)

/-- Convert one cell of a float column: an absent (NaN-padded) cell stays
NaN, a present cell must parse as a float. -/
def floatCell (r : List (List Char)) (i : ℕ) : Except LoadError (Option ℚ) :=
  match r.get? i with
  | none => Except.ok none
  | some s =>
      match decimalParse s with
      | some q => Except.ok (some q)
      | none => Except.error LoadError.valueError

/-- Effectful map over a list, stopping at the first error (the shape of a
whole-column `.astype(float)` conversion). -/
def exceptMapList {α β : Type*} (f : α → Except LoadError β) : List α → Except LoadError (List β)
  | [] => Except.ok []
  | a :: as =>
      match f a, exceptMapList f as with
      | Except.ok b, Except.ok bs => Except.ok (b :: bs)
      | Except.error e, _ => Except.error e
      | _, Except.error e => Except.error e

/-- Convert column `i` of the parsed rows to floats. -/
def floatColumn (rows : List (List (List Char))) (i : ℕ) : Except LoadError (List (Option ℚ)) :=
  exceptMapList (fun r => floatCell r i) rows

/-- Embedding of `load_vectors(csv_path)`:

    df = pd.read_csv(csv_path, header=None, comment="#")
    df = df.iloc[:, [1, 2, 3, 4]]
    df.columns = ["Datetime", "X", "Y", "Z"]
    df["X"] = df["X"].astype(float)  # likewise Y, Z
    return df["Datetime"].tolist(), df["X"].tolist(), df["Y"].tolist(), df["Z"].tolist()

following the `read_csv` semantics described above: empty input fails,
a row longer than the first row fails, a frame narrower than 5 columns
fails at `iloc`, short rows are NaN-padded, and each present cell of the
`X`/`Y`/`Z` columns must parse as a float. -/
def load_vectors (lines : List String) : Except LoadError Vectors :=
  let rows := parseRows lines
  let ncols := (rows.headD []).length
  if rows.isEmpty then Except.error LoadError.emptyData
  else if rows.any (fun r => ncols < r.length) then Except.error LoadError.parserError
  else if ncols < 5 then Except.error LoadError.indexError
  else
    match floatColumn rows 2, floatColumn rows 3, floatColumn rows 4 with
    | Except.ok X, Except.ok Y, Except.ok Z =>
        Except.ok ⟨rows.map (fun r => r.get? 1), X, Y, Z⟩
    | Except.error e, _, _ => Except.error e
    | _, Except.error e, _ => Except.error e
    | _, _, Except.error e => Except.error e

/-- Recognizer for a successful load. -/
def isOkLoad : Except LoadError Vectors → Bool
  | Except.ok _ => true
  | Except.error _ => false

/-- A cell of a float column converts without error: it is either absent
(NaN-padded) or parses as a float. -/
def cellOk (r : List (List Char)) (i : ℕ) : Bool :=
  match r.get? i with
  | none => true
  | some s => (decimalParse s).isSome

/-- Concrete loader input whose second row has only 3 columns. -/
def shortRowLines : List String :=
  ["1,2001-01-01,1.5,2.5,3.5", "2,2001-01-02,4.0"]

/-! ## Lemmas and theorems -/

/-! ## Basic facts about the models -/

lemma radians_degrees (t : ℝ) : radians (degrees t) = t := by
  unfold radians degrees
  field_simp

lemma hypot_eq_abs_complex (x y : ℝ) : hypot x y = Complex.abs ⟨x, y⟩ := by
  rw [Complex.abs_apply, Complex.normSq_mk, hypot]
  ring_nf

lemma hypot_eq_zero_iff (x y : ℝ) : hypot x y = 0 ↔ x = 0 ∧ y = 0 := by
  rw [hypot]
  constructor
  · intro h
    have h0 : x ^ 2 + y ^ 2 ≤ 0 := Real.sqrt_eq_zero'.mp h
    constructor
    · nlinarith [sq_nonneg x, sq_nonneg y]
    · nlinarith [sq_nonneg x, sq_nonneg y]
  · rintro ⟨rfl, rfl⟩
    simp

lemma cos_atan2 (y x : ℝ) (h : ¬(x = 0 ∧ y = 0)) :
    Real.cos (atan2 y x) = x / hypot x y := by
  rw [atan2, hypot_eq_abs_complex]
  have hz : (⟨x, y⟩ : ℂ) ≠ 0 := by
    intro hc
    apply h
    have hre := congrArg Complex.re hc
    have him := congrArg Complex.im hc
    simp at hre him
    exact ⟨hre, him⟩
  simpa using Complex.cos_arg hz

lemma sin_atan2 (y x : ℝ) : Real.sin (atan2 y x) = y / hypot x y := by
  rw [atan2, hypot_eq_abs_complex]
  simpa using Complex.sin_arg ⟨x, y⟩

lemma atan2_zero_zero : atan2 0 0 = 0 := by
  have : (⟨0, 0⟩ : ℂ) = 0 := Complex.ext rfl rfl
  rw [atan2, this, Complex.arg_zero]

lemma degrees_zero : degrees 0 = 0 := by
  unfold degrees
  ring

lemma neg_pi_lt_atan2 (y x : ℝ) : -Real.pi < atan2 y x :=
  Complex.neg_pi_lt_arg ⟨x, y⟩

lemma atan2_le_pi (y x : ℝ) : atan2 y x ≤ Real.pi :=
  Complex.arg_le_pi ⟨x, y⟩

lemma abs_atan2_le_of_nonneg (z r : ℝ) (hr : 0 ≤ r) :
    |atan2 z r| ≤ Real.pi / 2 := by
  rw [atan2]
  exact Complex.abs_arg_le_pi_div_two_iff.mpr hr

lemma scale_cancel : SCALE_M_PER_AU * (SCALE_DENOMINATOR / AU_METERS) = 1 := by
  unfold SCALE_M_PER_AU SCALE_DENOMINATOR AU_METERS
  norm_num

lemma SCALE_M_PER_AU_pos : 0 < SCALE_M_PER_AU := by
  unfold SCALE_M_PER_AU SCALE_DENOMINATOR AU_METERS
  norm_num

/-! ## Component lemmas about `xyz_to_lonlatalt` -/

lemma xyz_lon (x y z : ℝ) : (xyz_to_lonlatalt x y z).lon = degrees (atan2 y x) := rfl

lemma xyz_alt (x y z : ℝ) :
    (xyz_to_lonlatalt x y z).alt = Real.sqrt (x * x + y * y + z * z) * SCALE_M_PER_AU := rfl

lemma xyz_lat_of_ne (x y z : ℝ) (h : hypot x y ≠ 0) :
    (xyz_to_lonlatalt x y z).lat = degrees (atan2 z (hypot x y)) := by
  simp [xyz_to_lonlatalt, h]

lemma xyz_lat_pole_pos (x y z : ℝ) (h : hypot x y = 0) (hz : 0 < z) :
    (xyz_to_lonlatalt x y z).lat = 90 := by
  simp [xyz_to_lonlatalt, h, hz]

lemma xyz_lat_pole_nonpos (x y z : ℝ) (h : hypot x y = 0) (hz : ¬0 < z) :
    (xyz_to_lonlatalt x y z).lat = -90 := by
  simp [xyz_to_lonlatalt, h, hz]

lemma reconstruct_eq (p : LonLatAlt) :
    reconstruct p =
      (p.alt * (SCALE_DENOMINATOR / AU_METERS) * Real.cos (radians p.lat) *
        Real.cos (radians p.lon),
       p.alt * (SCALE_DENOMINATOR / AU_METERS) * Real.cos (radians p.lat) *
        Real.sin (radians p.lon),
       p.alt * (SCALE_DENOMINATOR / AU_METERS) * Real.sin (radians p.lat)) := rfl

lemma radians_ninety : radians 90 = Real.pi / 2 := by
  unfold radians
  ring

lemma radians_neg_ninety : radians (-90) = -(Real.pi / 2) := by
  unfold radians
  ring

/-- C1: Spherical projection round-trip: for every input vector `(x,y,z)`,
taking the `(lon, lat, altitude)` produced by `xyz_to_lonlatalt` and
reconstructing a Cartesian vector from the spherical form, rescaling the
radius by `scaleDenominator / metersPerAU`, recovers the original `(x,y,z)`
exactly over real arithmetic. -/
theorem xyz_to_lonlatalt_roundtrip (x y z : ℝ) :
    reconstruct (xyz_to_lonlatalt x y z) = (x, y, z) := by
  rw [reconstruct_eq]
  by_cases hxy : hypot x y = 0
  · obtain ⟨hx, hy⟩ := (hypot_eq_zero_iff x y).mp hxy
    subst hx
    subst hy
    rw [xyz_lon, xyz_alt]
    have hr : Real.sqrt (0 * 0 + 0 * 0 + z * z) = |z| := by
      rw [show (0 : ℝ) * 0 + 0 * 0 + z * z = z * z by ring, Real.sqrt_mul_self_eq_abs]
    have hcollapse : |z| * SCALE_M_PER_AU * (SCALE_DENOMINATOR / AU_METERS) = |z| := by
      rw [mul_assoc, scale_cancel, mul_one]
    have hlon : radians (degrees (atan2 0 0)) = 0 := by
      rw [radians_degrees, atan2_zero_zero]
    by_cases hz : 0 < z
    · rw [xyz_lat_pole_pos 0 0 z hxy hz, hr, hcollapse, hlon, radians_ninety,
        Real.cos_pi_div_two, Real.sin_pi_div_two, Real.cos_zero, Real.sin_zero]
      simp [abs_of_pos hz]
    · rw [xyz_lat_pole_nonpos 0 0 z hxy hz, hr, hcollapse, hlon, radians_neg_ninety,
        Real.cos_neg, Real.sin_neg, Real.cos_pi_div_two, Real.sin_pi_div_two,
        Real.cos_zero, Real.sin_zero]
      simp [abs_of_nonpos (le_of_not_lt hz)]
  · rw [xyz_lon, xyz_alt, xyz_lat_of_ne x y z hxy, radians_degrees, radians_degrees]
    have hs : 0 < hypot x y := lt_of_le_of_ne (Real.sqrt_nonneg _) (Ne.symm hxy)
    have hsum : 0 < x ^ 2 + y ^ 2 := by
      have := Real.sqrt_pos.mp hs
      exact this
    have hrpos : 0 < Real.sqrt (x * x + y * y + z * z) := by
      apply Real.sqrt_pos.mpr
      nlinarith [sq_nonneg z]
    have hxyz : ¬(x = 0 ∧ y = 0) := by
      rintro ⟨rfl, rfl⟩
      exact hxy ((hypot_eq_zero_iff 0 0).mpr ⟨rfl, rfl⟩)
    have hhyp : hypot (hypot x y) z = Real.sqrt (x * x + y * y + z * z) := by
      rw [hypot, hypot, Real.sq_sqrt (by positivity)]
      congr 1
      ring
    have hcoslon : Real.cos (atan2 y x) = x / hypot x y := cos_atan2 y x hxyz
    have hsinlon : Real.sin (atan2 y x) = y / hypot x y := sin_atan2 y x
    have hcoslat : Real.cos (atan2 z (hypot x y)) =
        hypot x y / Real.sqrt (x * x + y * y + z * z) := by
      rw [cos_atan2 z (hypot x y) (by rintro ⟨h0, _⟩; exact hxy h0), hhyp]
    have hsinlat : Real.sin (atan2 z (hypot x y)) =
        z / Real.sqrt (x * x + y * y + z * z) := by
      rw [sin_atan2 z (hypot x y), hhyp]
    have hcollapse : Real.sqrt (x * x + y * y + z * z) * SCALE_M_PER_AU *
        (SCALE_DENOMINATOR / AU_METERS) = Real.sqrt (x * x + y * y + z * z) := by
      rw [mul_assoc, scale_cancel, mul_one]
    rw [hcollapse, hcoslon, hsinlon, hcoslat, hsinlat]
    refine Prod.ext ?_ (Prod.ext ?_ ?_) <;>
      field_simp

/-- C2: Pole singularity handling: for every input with `hypot x y = 0`,
`xyz_to_lonlatalt` returns `lat = 90` if `z > 0` and `lat = -90` otherwise;
in particular `(0,0,5) ↦ (lon 0, lat 90)`, `(0,0,-5) ↦ lat -90`, and the
degenerate `(0,0,0)` yields `lat = -90` and `lon = 0`. -/
theorem xyz_to_lonlatalt_pole :
    (∀ x y z : ℝ, hypot x y = 0 →
        (xyz_to_lonlatalt x y z).lat = if 0 < z then 90 else -90)
    ∧ (xyz_to_lonlatalt 0 0 5).lon = 0
    ∧ (xyz_to_lonlatalt 0 0 5).lat = 90
    ∧ (xyz_to_lonlatalt 0 0 (-5)).lat = -90
    ∧ (xyz_to_lonlatalt 0 0 0).lat = -90
    ∧ (xyz_to_lonlatalt 0 0 0).lon = 0 := by
  have h00 : hypot (0 : ℝ) 0 = 0 := (hypot_eq_zero_iff 0 0).mpr ⟨rfl, rfl⟩
  have hlon0 : ∀ z : ℝ, (xyz_to_lonlatalt 0 0 z).lon = 0 := by
    intro z
    rw [xyz_lon, atan2_zero_zero, degrees_zero]
  refine ⟨?_, hlon0 5, ?_, ?_, ?_, hlon0 0⟩
  · intro x y z h
    by_cases hz : 0 < z
    · rw [xyz_lat_pole_pos x y z h hz, if_pos hz]
    · rw [xyz_lat_pole_nonpos x y z h hz, if_neg hz]
  · exact xyz_lat_pole_pos 0 0 5 h00 (by norm_num)
  · exact xyz_lat_pole_nonpos 0 0 (-5) h00 (by norm_num)
  · exact xyz_lat_pole_nonpos 0 0 0 h00 (by norm_num)

/-- Witness for C2 at the concrete input `(0, 0, 2)`. -/
theorem xyz_to_lonlatalt_pole_witness :
    hypot 0 0 = 0 ∧
      (xyz_to_lonlatalt 0 0 2).lat = if (0 : ℝ) < 2 then 90 else -90 := by
  have h00 : hypot (0 : ℝ) 0 = 0 := (hypot_eq_zero_iff 0 0).mpr ⟨rfl, rfl⟩
  exact ⟨h00, xyz_to_lonlatalt_pole.1 0 0 2 h00⟩

/-- C7: Range of the spherical projection output: for every input,
`lon ∈ (-180, 180]` and `lat ∈ [-90, 90]` (both in degrees). -/
theorem xyz_to_lonlatalt_range (x y z : ℝ) :
    -180 < (xyz_to_lonlatalt x y z).lon
    ∧ (xyz_to_lonlatalt x y z).lon ≤ 180
    ∧ -90 ≤ (xyz_to_lonlatalt x y z).lat
    ∧ (xyz_to_lonlatalt x y z).lat ≤ 90 := by
  have hpi : 0 < Real.pi := Real.pi_pos
  have hc : 0 < 180 / Real.pi := by positivity
  refine ⟨?_, ?_, ?_, ?_⟩
  · rw [xyz_lon]
    have h1 : -Real.pi < atan2 y x := neg_pi_lt_atan2 y x
    have h2 : -Real.pi * (180 / Real.pi) < atan2 y x * (180 / Real.pi) :=
      mul_lt_mul_of_pos_right h1 hc
    have h3 : -Real.pi * (180 / Real.pi) = -180 := by
      field_simp
      ring
    rw [degrees]
    linarith [h2, h3.symm.le]
  · rw [xyz_lon]
    have h1 : atan2 y x ≤ Real.pi := atan2_le_pi y x
    have h2 : atan2 y x * (180 / Real.pi) ≤ Real.pi * (180 / Real.pi) :=
      mul_le_mul_of_nonneg_right h1 hc.le
    have h3 : Real.pi * (180 / Real.pi) = 180 := by
      field_simp
    rw [degrees]
    linarith
  · by_cases hxy : hypot x y = 0
    · by_cases hz : 0 < z
      · rw [xyz_lat_pole_pos x y z hxy hz]
        norm_num
      · rw [xyz_lat_pole_nonpos x y z hxy hz]
    · rw [xyz_lat_of_ne x y z hxy]
      have habs : |atan2 z (hypot x y)| ≤ Real.pi / 2 :=
        abs_atan2_le_of_nonneg z (hypot x y) (Real.sqrt_nonneg _)
      have h1 : -(Real.pi / 2) ≤ atan2 z (hypot x y) := (abs_le.mp habs).1
      have h2 : -(Real.pi / 2) * (180 / Real.pi) ≤ atan2 z (hypot x y) * (180 / Real.pi) :=
        mul_le_mul_of_nonneg_right h1 hc.le
      have h3 : -(Real.pi / 2) * (180 / Real.pi) = -90 := by
        field_simp
        ring
      rw [degrees]
      linarith
  · by_cases hxy : hypot x y = 0
    · by_cases hz : 0 < z
      · rw [xyz_lat_pole_pos x y z hxy hz]
      · rw [xyz_lat_pole_nonpos x y z hxy hz]
        norm_num
    · rw [xyz_lat_of_ne x y z hxy]
      have habs : |atan2 z (hypot x y)| ≤ Real.pi / 2 :=
        abs_atan2_le_of_nonneg z (hypot x y) (Real.sqrt_nonneg _)
      have h1 : atan2 z (hypot x y) ≤ Real.pi / 2 := (abs_le.mp habs).2
      have h2 : atan2 z (hypot x y) * (180 / Real.pi) ≤ Real.pi / 2 * (180 / Real.pi) :=
        mul_le_mul_of_nonneg_right h1 hc.le
      have h3 : Real.pi / 2 * (180 / Real.pi) = 90 := by
        field_simp
        ring
      rw [degrees]
      linarith

/-- C10: the altitude returned by `xyz_to_lonlatalt` is nonnegative, and it
is zero exactly when `x = y = z = 0`. -/
theorem xyz_to_lonlatalt_alt_nonneg (x y z : ℝ) :
    0 ≤ (xyz_to_lonlatalt x y z).alt
    ∧ ((xyz_to_lonlatalt x y z).alt = 0 ↔ x = 0 ∧ y = 0 ∧ z = 0) := by
  rw [xyz_alt]
  have hS : 0 < SCALE_M_PER_AU := SCALE_M_PER_AU_pos
  constructor
  · exact mul_nonneg (Real.sqrt_nonneg _) hS.le
  · constructor
    · intro h
      have hsqrt : Real.sqrt (x * x + y * y + z * z) = 0 := by
        rcases mul_eq_zero.mp h with h' | h'
        · exact h'
        · exact absurd h' hS.ne'
      have hle : x * x + y * y + z * z ≤ 0 := Real.sqrt_eq_zero'.mp hsqrt
      refine ⟨?_, ?_, ?_⟩ <;> nlinarith [mul_self_nonneg x, mul_self_nonneg y, mul_self_nonneg z]
    · rintro ⟨rfl, rfl, rfl⟩
      simp

/-! ## Filter lemmas -/

lemma filterLoop_chain (d : ℝ) :
    ∀ (pts : List (ℝ × ℝ)) (last : Option (ℝ × ℝ)),
      List.Chain' (fun a b => distance b a > d) (filterLoop d last pts)
      ∧ (∀ q : ℝ × ℝ, last = some q →
          ∀ p ∈ (filterLoop d last pts).head?, distance p q > d) := by
  intro pts
  induction pts with
  | nil =>
    intro last
    constructor
    · simp [filterLoop]
    · intro q _ p hp
      simp [filterLoop] at hp
  | cons p rest ih =>
    intro last
    match last with
    | none =>
      have hrest := ih (some p)
      constructor
      · rw [filterLoop]
        rw [List.chain'_cons']
        exact ⟨fun b hb => hrest.2 p rfl b hb, hrest.1⟩
      · intro q hq
        exact absurd hq (by simp)
    | some q =>
      by_cases hd : distance p q > d
      · have hrest := ih (some p)
        have hstep : filterLoop d (some q) (p :: rest) = p :: filterLoop d (some p) rest := by
          rw [filterLoop, if_pos hd]
        constructor
        · rw [hstep, List.chain'_cons']
          exact ⟨fun b hb => hrest.2 p rfl b hb, hrest.1⟩
        · intro q' hq' p' hp'
          replace hq' : q = q' := by injection hq'
          subst hq'
          rw [hstep] at hp'
          simp at hp'
          subst hp'
          exact hd
      · have hrest := ih (some q)
        have hstep : filterLoop d (some q) (p :: rest) = filterLoop d (some q) rest := by
          rw [filterLoop, if_neg hd]
        constructor
        · rw [hstep]
          exact hrest.1
        · intro q' hq' p' hp'
          rw [hstep] at hp'
          exact hrest.2 q' hq' p' hp'

lemma filterLoop_sublist (d : ℝ) :
    ∀ (pts : List (ℝ × ℝ)) (last : Option (ℝ × ℝ)),
      List.Sublist (filterLoop d last pts) pts := by
  intro pts
  induction pts with
  | nil =>
    intro last
    simp [filterLoop]
  | cons p rest ih =>
    intro last
    match last with
    | none =>
      rw [filterLoop]
      exact List.Sublist.cons₂ p (ih (some p))
    | some q =>
      by_cases hd : distance p q > d
      · rw [filterLoop, if_pos hd]
        exact List.Sublist.cons₂ p (ih (some p))
      · rw [filterLoop, if_neg hd]
        exact List.Sublist.cons p (ih (some q))

lemma filtered_points_head (d : ℝ) (pts : List (ℝ × ℝ)) :
    (filtered_points d pts).head? = pts.head? := by
  cases pts with
  | nil => simp [filtered_points, filterLoop]
  | cons p rest => simp [filtered_points, filterLoop]

lemma takeEvery_head (k : ℕ) (pts : List α) :
    (takeEvery k pts).head? = pts.head? := by
  cases pts with
  | nil => rw [takeEvery]
  | cons p rest => rw [takeEvery, List.head?_cons, List.head?_cons]

/-- C3: Minimum-distance pruning is strict: every pair of consecutive
points kept by the filter is at planar distance strictly greater than `d`,
and a candidate whose distance to the last kept point equals `d` exactly is
dropped. -/
theorem filtered_points_strict :
    (∀ (d : ℝ) (pts : List (ℝ × ℝ)) (i : ℕ)
        (h : i < (filtered_points d pts).length - 1),
        distance ((filtered_points d pts).get ⟨i + 1, by omega⟩)
            ((filtered_points d pts).get ⟨i, by omega⟩) > d)
    ∧ (∀ (d : ℝ) (q p : ℝ × ℝ) (rest : List (ℝ × ℝ)), distance p q = d →
        filterLoop d (some q) (p :: rest) = filterLoop d (some q) rest) := by
  constructor
  · intro d pts i h
    have hchain := (filterLoop_chain d pts none).1
    exact List.chain'_iff_get.mp hchain i h
  · intro d q p rest heq
    rw [filterLoop, if_neg (by rw [heq]; exact lt_irrefl d)]

/-- Witness for C3: with `minDistance = 100`, the points `(0,0)` and
`(200,0)` (distance `200`) are both kept and their distance exceeds `100`;
the point `(100,0)` at distance exactly `100` from a kept `(0,0)` is
dropped. -/
theorem filtered_points_strict_witness :
    0 < (filtered_points 100 [(0, 0), (200, 0)]).length - 1
    ∧ distance (200, 0) (0, 0) = 200
    ∧ filterLoop 100 (some (0, 0)) [((100 : ℝ), (0 : ℝ))] = []
    ∧ ∃ h : 0 < (filtered_points 100 [(0, 0), (200, 0)]).length - 1,
        distance ((filtered_points 100 [(0, 0), (200, 0)]).get ⟨1, by omega⟩)
            ((filtered_points 100 [(0, 0), (200, 0)]).get ⟨0, by omega⟩) > 100 := by
  have hd200 : distance ((200 : ℝ), (0 : ℝ)) (0, 0) = 200 := by
    rw [distance]
    norm_num
    rw [show (40000 : ℝ) = 200 ^ 2 by norm_num, Real.sqrt_sq (by norm_num : (0 : ℝ) ≤ 200)]
  have hd100 : distance ((100 : ℝ), (0 : ℝ)) (0, 0) = 100 := by
    rw [distance]
    norm_num
    rw [show (10000 : ℝ) = 100 ^ 2 by norm_num, Real.sqrt_sq (by norm_num : (0 : ℝ) ≤ 100)]
  have hkeep : filtered_points 100 [((0 : ℝ), (0 : ℝ)), (200, 0)] = [(0, 0), (200, 0)] := by
    rw [filtered_points, filterLoop, filterLoop, if_pos (by rw [hd200]; norm_num), filterLoop]
  have hlen : 0 < (filtered_points 100 [((0 : ℝ), (0 : ℝ)), (200, 0)]).length - 1 := by
    rw [hkeep]
    norm_num
  refine ⟨hlen, hd200, ?_, hlen, filtered_points_strict.1 100 [(0, 0), (200, 0)] 0 hlen⟩
  exact filtered_points_strict.2 100 (0, 0) (100, 0) [] hd100

/-- C4: the filter's output is a sublist (ordered subsequence, no
reordering or duplication) of its strided input; the first strided sample
is always kept (it heads the output), and a non-empty input yields at least
one output point. -/
theorem filtered_points_sublist (d : ℝ) (k : ℕ) (pts : List (ℝ × ℝ)) (hk : 1 ≤ k) :
    List.Sublist (filtered_points d (takeEvery k pts)) (takeEvery k pts)
    ∧ (filtered_points d (takeEvery k pts)).head? = (takeEvery k pts).head?
    ∧ (pts ≠ [] → 1 ≤ (filtered_points d (takeEvery k pts)).length) := by
  refine ⟨filterLoop_sublist d (takeEvery k pts) none, filtered_points_head d _, ?_⟩
  intro hne
  match pts with
  | [] => exact absurd rfl hne
  | p :: rest =>
    rw [takeEvery, filtered_points, filterLoop]
    simp

/-- Witness for C4 at stride `2` on a concrete two-point input. -/
theorem filtered_points_sublist_witness :
    1 ≤ line_skip
    ∧ [((0 : ℝ), (0 : ℝ))] ≠ []
    ∧ List.Sublist (filtered_points 100 (takeEvery line_skip [((0 : ℝ), (0 : ℝ))]))
        (takeEvery line_skip [((0 : ℝ), (0 : ℝ))])
    ∧ 1 ≤ (filtered_points 100 (takeEvery line_skip [((0 : ℝ), (0 : ℝ))])).length := by
  have h := filtered_points_sublist 100 line_skip [((0 : ℝ), (0 : ℝ))] (by norm_num [line_skip])
  exact ⟨by norm_num [line_skip], by simp, h.1, h.2.2 (by simp)⟩

/-- C5: Affine-offset projection: `project` returns
`(refLon + x/scaleFactor, refLat + y/scaleFactor)`, and at the reference
configuration the input `(174000000, 0)` maps to
`(-56.609083, -25.280945)`. -/
theorem project_affine :
    (∀ x y : ℝ, project x y = (sun_lon + x / factor_escala, sun_lat + y / factor_escala))
    ∧ project 174000000 0 = (-56.609083, -25.280945) := by
  constructor
  · intro x y
    rfl
  · rw [project, sun_lon, sun_lat, factor_escala]
    norm_num

/-! ## Emitter lemmas -/

lemma stylesFrom_countP_style :
    ∀ (l : List Series) (j : ℕ), (stylesFrom j l).countP (fun p => isStyle p) = l.length := by
  intro l
  induction l with
  | nil => intro j; rfl
  | cons s rest ih =>
    intro j
    rw [stylesFrom, List.countP_cons]
    rw [ih (j + 1)]
    simp [isStyle]

lemma stylesFrom_countP_placemark :
    ∀ (l : List Series) (j : ℕ), (stylesFrom j l).countP (fun p => isPlacemark p) = 0 := by
  intro l
  induction l with
  | nil => intro j; rfl
  | cons s rest ih =>
    intro j
    rw [stylesFrom, List.countP_cons]
    rw [ih (j + 1)]
    simp [isPlacemark]

lemma placemarksFrom_countP_style :
    ∀ (l : List Series) (j : ℕ), (placemarksFrom j l).countP (fun p => isStyle p) = 0 := by
  intro l
  induction l with
  | nil => intro j; rfl
  | cons s rest ih =>
    intro j
    rw [placemarksFrom, List.countP_cons]
    rw [ih (j + 1)]
    simp [isStyle]

lemma placemarksFrom_countP_placemark :
    ∀ (l : List Series) (j : ℕ),
      (placemarksFrom j l).countP (fun p => isPlacemark p) = l.length := by
  intro l
  induction l with
  | nil => intro j; rfl
  | cons s rest ih =>
    intro j
    rw [placemarksFrom, List.countP_cons]
    rw [ih (j + 1)]
    simp [isPlacemark]

lemma stylesFrom_filter_placemark :
    ∀ (l : List Series) (j : ℕ), (stylesFrom j l).filter (fun p => isPlacemark p) = [] := by
  intro l
  induction l with
  | nil => intro j; rfl
  | cons s rest ih =>
    intro j
    rw [stylesFrom, List.filter_cons]
    simp only [isPlacemark, Bool.false_eq_true, if_false]
    exact ih (j + 1)

lemma placemarksFrom_filter_placemark :
    ∀ (l : List Series) (j : ℕ),
      (placemarksFrom j l).filter (fun p => isPlacemark p) = placemarksFrom j l := by
  intro l
  induction l with
  | nil => intro j; rfl
  | cons s rest ih =>
    intro j
    rw [placemarksFrom, List.filter_cons_of_pos (by rfl), ih (j + 1)]

lemma build_kml_filter_placemark (series : List Series) :
    (build_kml series).filter (fun p => isPlacemark p) = placemarksFrom 1 series := by
  rw [build_kml]
  rw [List.filter_append, List.filter_append, List.filter_append]
  rw [stylesFrom_filter_placemark, placemarksFrom_filter_placemark]
  simp [isPlacemark]

lemma placemarksFrom_getD :
    ∀ (l : List Series) (i j : ℕ), i < l.length →
      (placemarksFrom j l).getD i KmlPart.footer =
        KmlPart.placemark (l.getD i default).name ("s" ++ toString (j + i))
          (make_when_coords (l.getD i default).T (l.getD i default).X
            (l.getD i default).Y (l.getD i default).Z) := by
  intro l
  induction l with
  | nil =>
    intro i j h
    exact absurd h (by simp)
  | cons s rest ih =>
    intro i j h
    match i with
    | 0 =>
      rfl
    | Nat.succ i' =>
      rw [placemarksFrom]
      have h' : i' < rest.length := by
        simp at h
        omega
      have := ih i' (j + 1) h'
      rw [show (KmlPart.placemark s.name ("s" ++ toString j)
            (make_when_coords s.T s.X s.Y s.Z) :: placemarksFrom (j + 1) rest).getD
            (i' + 1) KmlPart.footer = (placemarksFrom (j + 1) rest).getD i' KmlPart.footer
          from rfl]
      rw [this]
      have harith : j + 1 + i' = j + (i' + 1) := by omega
      rw [harith]
      rfl

lemma bind_expand_countP_coord (l : List (String × ℝ × ℝ × ℝ)) :
    (l.flatMap expandEntry).countP (fun e => isCoord e) = l.length := by
  induction l with
  | nil => rfl
  | cons q rest ih =>
    rw [List.flatMap_cons, expandEntry, List.countP_append, ih]
    simp [isCoord, List.countP_cons]
    omega

lemma bind_expand_alternates (l : List (String × ℝ × ℝ × ℝ)) :
    alternatesWhenCoord (l.flatMap expandEntry) = true := by
  induction l with
  | nil => rfl
  | cons q rest ih =>
    rw [List.flatMap_cons, expandEntry]
    simpa [alternatesWhenCoord] using ih

lemma bind_expand_times (l : List (String × ℝ × ℝ × ℝ)) :
    (l.flatMap expandEntry).filterMap timeOf = l.map (fun q => q.1) := by
  induction l with
  | nil => rfl
  | cons q rest ih =>
    rw [List.flatMap_cons, expandEntry, List.filterMap_append, ih]
    simp [timeOf, List.filterMap_cons]

lemma bind_expand_coords (l : List (String × ℝ × ℝ × ℝ)) :
    (l.flatMap expandEntry).filterMap coordOf =
      l.map (fun q => xyz_to_lonlatalt q.2.1 q.2.2.1 q.2.2.2) := by
  induction l with
  | nil => rfl
  | cons q rest ih =>
    rw [List.flatMap_cons, expandEntry, List.filterMap_append, ih]
    simp [coordOf, List.filterMap_cons]

lemma zip4_of_eq_lengths :
    ∀ (T : List String) (X Y Z : List ℝ),
      X.length = T.length → Y.length = T.length → Z.length = T.length →
      (zip4 T X Y Z).length = T.length ∧ (zip4 T X Y Z).map (fun q => q.1) = T := by
  intro T
  induction T with
  | nil =>
    intro X Y Z hX hY hZ
    have : X = [] := List.length_eq_zero.mp hX
    subst this
    have : Y = [] := List.length_eq_zero.mp hY
    subst this
    have : Z = [] := List.length_eq_zero.mp hZ
    subst this
    exact ⟨rfl, rfl⟩
  | cons t T' ih =>
    intro X Y Z hX hY hZ
    match X, Y, Z with
    | [], _, _ => exact absurd hX (by simp)
    | _ :: _, [], _ => exact absurd hY (by simp)
    | _ :: _, _ :: _, [] => exact absurd hZ (by simp)
    | x :: X', y :: Y', z :: Z' =>
      simp only [List.length_cons, Nat.succ.injEq] at hX hY hZ
      obtain ⟨h1, h2⟩ := ih X' Y' Z' hX hY hZ
      constructor
      · rw [zip4, List.length_cons, h1]
        rfl
      · rw [zip4, List.map_cons, h2]

/-- C6: Emitter output counts and order: `build_kml` emits exactly one
style part and one track (placemark) part per input series; the `i`-th
track contains exactly as many `<gx:coord>` records as the `i`-th series
has samples, its body strictly alternates `<when>` / `<gx:coord>` pairs,
the `<when>` markers carry the series' time stamps in input order, and the
`<gx:coord>` records are the projections of the zipped samples in input
order. -/
theorem build_kml_counts (series : List Series)
    (hwf : ∀ s ∈ series,
      s.X.length = s.T.length ∧ s.Y.length = s.T.length ∧ s.Z.length = s.T.length) :
    (build_kml series).countP (fun p => isStyle p) = series.length
    ∧ (build_kml series).countP (fun p => isPlacemark p) = series.length
    ∧ (∀ i, i < series.length →
        (nthTrack series i).countP (fun e => isCoord e) = (series.getD i default).T.length
        ∧ alternatesWhenCoord (nthTrack series i) = true
        ∧ (nthTrack series i).filterMap timeOf = (series.getD i default).T
        ∧ (nthTrack series i).filterMap coordOf =
            (zip4 (series.getD i default).T (series.getD i default).X
              (series.getD i default).Y (series.getD i default).Z).map
              (fun q => xyz_to_lonlatalt q.2.1 q.2.2.1 q.2.2.2)) := by
  refine ⟨?_, ?_, ?_⟩
  · rw [build_kml, List.countP_append, List.countP_append, List.countP_append]
    rw [stylesFrom_countP_style, placemarksFrom_countP_style]
    simp [isStyle]
  · rw [build_kml, List.countP_append, List.countP_append, List.countP_append]
    rw [stylesFrom_countP_placemark, placemarksFrom_countP_placemark]
    simp [isPlacemark]
  · intro i hi
    have hs : (series.getD i default) ∈ series := by
      rw [List.getD_eq_getElem series default hi]
      exact List.getElem_mem hi
    obtain ⟨hX, hY, hZ⟩ := hwf _ hs
    have hz := zip4_of_eq_lengths (series.getD i default).T (series.getD i default).X
      (series.getD i default).Y (series.getD i default).Z hX hY hZ
    have htrack : nthTrack series i =
        make_when_coords (series.getD i default).T (series.getD i default).X
          (series.getD i default).Y (series.getD i default).Z := by
      rw [nthTrack, build_kml_filter_placemark, placemarksFrom_getD series i 1 hi]
      rfl
    refine ⟨?_, ?_, ?_, ?_⟩
    · rw [htrack, make_when_coords, bind_expand_countP_coord, hz.1]
    · rw [htrack, make_when_coords, bind_expand_alternates]
    · rw [htrack, make_when_coords, bind_expand_times, hz.2]
    · rw [htrack, make_when_coords, bind_expand_coords]

/-- Witness for C6: two series of lengths 3 and 5 give exactly 2 style
parts, 2 track parts, and tracks with 3 and 5 coordinate records. -/
theorem build_kml_counts_witness :
    (∀ s ∈ demoSeries,
      s.X.length = s.T.length ∧ s.Y.length = s.T.length ∧ s.Z.length = s.T.length)
    ∧ (build_kml demoSeries).countP (fun p => isStyle p) = 2
    ∧ (build_kml demoSeries).countP (fun p => isPlacemark p) = 2
    ∧ (nthTrack demoSeries 0).countP (fun e => isCoord e) = 3
    ∧ (nthTrack demoSeries 1).countP (fun e => isCoord e) = 5
    ∧ alternatesWhenCoord (nthTrack demoSeries 0) = true := by
  have hwf : ∀ s ∈ demoSeries,
      s.X.length = s.T.length ∧ s.Y.length = s.T.length ∧ s.Z.length = s.T.length := by
    intro s hs
    rw [demoSeries] at hs
    simp only [List.mem_cons, List.not_mem_nil, or_false] at hs
    rcases hs with rfl | rfl
    · exact ⟨rfl, rfl, rfl⟩
    · exact ⟨rfl, rfl, rfl⟩
  have h := build_kml_counts demoSeries hwf
  have h0 := h.2.2 0 (by rw [demoSeries]; norm_num)
  have h1 := h.2.2 1 (by rw [demoSeries]; norm_num)
  refine ⟨hwf, ?_, ?_, ?_, ?_, h0.2.1⟩
  · rw [h.1]; rfl
  · rw [h.2.1]; rfl
  · rw [h0.1]; rfl
  · rw [h1.1]; rfl

/-- C8: whenever the number of `--inputs` paths differs from the number of
`--names` strings, `main` performs exactly one action: a `SystemExit` with
status 1 and a message — in particular no input file is read and no output
file is written, whatever the file contents are. -/
theorem main_arg_mismatch (load : String → SeriesData) (inputs names : List String)
    (output : String) (h : inputs.length ≠ names.length) :
    main load inputs names output =
      [Action.exitErr 1 "--inputs and --names must have the same length."]
    ∧ (∀ a ∈ main load inputs names output,
        isReadAction a = false ∧ isWriteAction a = false) := by
  have hm : main load inputs names output =
      [Action.exitErr 1 "--inputs and --names must have the same length."] := by
    rw [main, if_pos h]
  refine ⟨hm, ?_⟩
  intro a ha
  rw [hm] at ha
  rcases List.mem_singleton.mp ha with rfl
  exact ⟨rfl, rfl⟩

/-- Witness for C8: `--inputs a.csv b.csv --names "A"` (counts 2 vs 1)
exits with the mismatch error and performs no read or write. -/
theorem main_arg_mismatch_witness :
    (["a.csv", "b.csv"].length ≠ ["A"].length)
    ∧ main (fun _ => ([], [], [], [])) ["a.csv", "b.csv"] ["A"] "out.kml" =
        [Action.exitErr 1 "--inputs and --names must have the same length."] := by
  have h : (["a.csv", "b.csv"].length ≠ ["A"].length) := by simp
  exact ⟨h, (main_arg_mismatch (fun _ => ([], [], [], [])) ["a.csv", "b.csv"] ["A"]
    "out.kml" h).1⟩

/-! ## Loader lemmas -/

lemma stripComment_of_head_hash (cs : List Char) (h : cs.head? = some '#') :
    stripComment cs = [] := by
  match cs with
  | [] => simp at h
  | c :: rest =>
    rw [List.head?_cons] at h
    have hc : c = '#' := by injection h
    subst hc
    rw [stripComment, List.takeWhile_cons]
    simp

lemma parseRows_comment (l : String) (lines : List String) (h : l.toList.head? = some '#') :
    parseRows (l :: lines) = parseRows lines := by
  rw [parseRows, parseRows, List.map_cons, stripComment_of_head_hash _ h]
  rw [List.filter_cons_of_neg (by simp)]

lemma exceptMapList_ok {α β : Type*} (f : α → Except LoadError β) (g : α → β) :
    ∀ l : List α, (∀ a ∈ l, f a = Except.ok (g a)) →
      exceptMapList f l = Except.ok (l.map g) := by
  intro l
  induction l with
  | nil => intro _; rfl
  | cons a as ih =>
    intro h
    rw [exceptMapList, h a (by simp), ih (fun b hb => h b (by simp [hb]))]
    rfl

lemma floatCell_ok (r : List (List Char)) (i : ℕ) (h : cellOk r i = true) :
    floatCell r i = Except.ok ((r.get? i).bind decimalParse) := by
  cases hc : r.get? i with
  | none =>
    simp only [floatCell, hc]
    rfl
  | some s =>
    simp only [cellOk, hc] at h
    cases hq : decimalParse s with
    | none =>
      rw [hq] at h
      exact absurd h (by simp)
    | some q =>
      simp only [floatCell, hc, hq]
      simp [hq]

lemma floatColumn_ok (rows : List (List (List Char))) (i : ℕ)
    (h : ∀ r ∈ rows, cellOk r i = true) :
    floatColumn rows i = Except.ok (rows.map (fun r => (r.get? i).bind decimalParse)) := by
  rw [floatColumn]
  exact exceptMapList_ok _ _ rows (fun r hr => floatCell_ok r i (h r hr))

/-- C9 (amended): `load_vectors` skips lines beginning with `#`; on a
well-formed table (every row exactly 5 columns, numeric cells parseable)
it discards column 0 and consumes columns 1–4 as `(date, x, y, z)` with
`x`, `y`, `z` parsed as floats; and it fails with an error when the first
data row has fewer than 5 columns.  (A non-first short row does NOT abort:
its missing trailing cells are NaN-padded — see the counterexample.) -/
theorem load_vectors_spec :
    (∀ (l : String) (lines : List String), l.toList.head? = some '#' →
        load_vectors (l :: lines) = load_vectors lines)
    ∧ (∀ lines : List String, parseRows lines ≠ [] →
        (∀ r ∈ parseRows lines, r.length = 5) →
        (∀ r ∈ parseRows lines, cellOk r 2 = true ∧ cellOk r 3 = true ∧ cellOk r 4 = true) →
        load_vectors lines = Except.ok
          ⟨(parseRows lines).map (fun r => r.get? 1),
           (parseRows lines).map (fun r => (r.get? 2).bind decimalParse),
           (parseRows lines).map (fun r => (r.get? 3).bind decimalParse),
           (parseRows lines).map (fun r => (r.get? 4).bind decimalParse)⟩)
    ∧ (∀ lines : List String, parseRows lines ≠ [] →
        ((parseRows lines).headD []).length < 5 →
        isOkLoad (load_vectors lines) = false) := by
  refine ⟨?_, ?_, ?_⟩
  · intro l lines h
    have hpr := parseRows_comment l lines h
    simp only [load_vectors, hpr]
  · intro lines hne h5 hcells
    have hisEmpty : (parseRows lines).isEmpty = false := by
      cases hl : parseRows lines with
      | nil => exact absurd hl hne
      | cons r rest => rfl
    have hncols : ((parseRows lines).headD []).length = 5 := by
      cases hl : parseRows lines with
      | nil => exact absurd hl hne
      | cons r rest =>
        have : r ∈ parseRows lines := by
          rw [hl]
          simp
        simpa [hl] using h5 r this
    have hany : (parseRows lines).any
        (fun r => ((parseRows lines).headD []).length < r.length) = false := by
      rw [List.any_eq_false]
      intro r hr
      rw [hncols, h5 r hr]
      simp
    have hX := floatColumn_ok (parseRows lines) 2 (fun r hr => (hcells r hr).1)
    have hY := floatColumn_ok (parseRows lines) 3 (fun r hr => (hcells r hr).2.1)
    have hZ := floatColumn_ok (parseRows lines) 4 (fun r hr => (hcells r hr).2.2)
    simp only [load_vectors, hisEmpty, hX, hY, hZ]
    rw [if_neg (by simp), if_neg (by rw [hany]; simp), if_neg (by rw [hncols]; norm_num)]
  · intro lines hne hshort
    have hisEmpty : (parseRows lines).isEmpty = false := by
      cases hl : parseRows lines with
      | nil => exact absurd hl hne
      | cons r rest => rfl
    by_cases hany : (parseRows lines).any
        (fun r => ((parseRows lines).headD []).length < r.length) = true
    · simp only [load_vectors, hisEmpty]
      rw [if_neg (by simp), if_pos hany]
      rfl
    · have hany' : (parseRows lines).any
          (fun r => ((parseRows lines).headD []).length < r.length) = false := by
        simpa using hany
      simp only [load_vectors, hisEmpty]
      rw [if_neg (by simp), if_neg (by rw [hany']; simp), if_pos hshort]
      rfl

/-- Counterexample to C9 as stated: on `shortRowLines`, whose second row
has only 3 columns (fewer than 5), `load_vectors` does NOT fail — the
missing cells are NaN-padded and the load succeeds. -/
theorem load_vectors_short_row_counterexample :
    ((parseRows shortRowLines).getD 1 []).length = 3
    ∧ isOkLoad (load_vectors shortRowLines) = true := by
  constructor
  · decide
  · decide

/-- Witness for the amended C9 on concrete inputs: a `#` comment line is
skipped, a well-formed 5-column row loads into the four columns, and an
input whose first row has 3 columns fails. -/
theorem load_vectors_spec_witness :
    ("#c".toList.head? = some '#')
    ∧ load_vectors ("#c" :: ["1,2,3,4,5"]) = load_vectors ["1,2,3,4,5"]
    ∧ (parseRows ["1,2,3"] ≠ []
        ∧ ((parseRows ["1,2,3"]).headD []).length < 5
        ∧ isOkLoad (load_vectors ["1,2,3"]) = false)
    ∧ load_vectors ["1,2001,1.5,2.5,3.5"] = Except.ok
        ⟨(parseRows ["1,2001,1.5,2.5,3.5"]).map (fun r => r.get? 1),
         (parseRows ["1,2001,1.5,2.5,3.5"]).map (fun r => (r.get? 2).bind decimalParse),
         (parseRows ["1,2001,1.5,2.5,3.5"]).map (fun r => (r.get? 3).bind decimalParse),
         (parseRows ["1,2001,1.5,2.5,3.5"]).map (fun r => (r.get? 4).bind decimalParse)⟩ := by
  refine ⟨by decide, load_vectors_spec.1 "#c" ["1,2,3,4,5"] (by decide),
    ⟨by decide, by decide, load_vectors_spec.2.2 ["1,2,3"] (by decide) (by decide)⟩,
    load_vectors_spec.2.1 ["1,2001,1.5,2.5,3.5"] (by decide) (by decide) (by decide)⟩

end

end SolarKML
